import Mathlib

/-!
Verification development for the TDS tower-defense simulation core.

Each Python module of the repository that the checked claims touch is
shallowly embedded as Lean definitions below:

* tds/game.py           -> difficulty scaling (DifficultyCurve, scaleBlueprint)
* src/waves/wave_manager.py -> WaveManager (timer driven spawn scheduler)
* src/ui/build_manager.py   -> BuildManager (grid placement state machine)
* src/enemies/base_enemy.py -> Enemy movement along waypoints, Player lives
* src/towers/projectile.py  -> Projectile combat resolution

Python floats are modelled as exact rationals (or reals where Euclidean
distances occur), Python ints as integers.  Mutation is modelled by
explicit state passing; callback invocations are modelled as returned
event lists.
-/

namespace TDS

/- ## Difficulty scaling: tds/game.py and tds/models.py -/

/-- Raw wave definition, mirroring models.WaveBlueprint. -/
structure WaveBlueprint where
  wave : ℤ
  enemy_type : String
  count : ℤ
  base_health : ℚ
  base_speed : ℚ
  special : Option String
deriving DecidableEq

/-- Structured rendering of the difficulty tag strings produced in
game.apply_difficulty.  The Python code emits f-strings; the numeric or
textual payload of each tag is kept as data here, which is injective into
the original strings. -/
inductive Tag where
  | vida : ℤ → Tag
  | velocidad : ℤ → Tag
  | cantidad : ℤ → Tag
  | especial : String → Tag
deriving DecidableEq

/-- Scaled wave, mirroring models.WaveConfig. -/
structure WaveConfig where
  wave : ℤ
  enemy_type : String
  count : ℤ
  health : ℚ
  speed : ℚ
  special : Option String
  difficulty_tags : List Tag
deriving DecidableEq

/-- Difficulty parameters, mirroring game.DifficultyCurve with its default
field values. -/
structure DifficultyCurve where
  health_growth : ℚ := 22 / 100
  speed_growth : ℚ := 5 / 100
  count_growth : ℚ := 8 / 100
  special_frequency : ℤ := 3
  extra_specials : List String := ["élite", "acorazado", "etéreo"]
deriving DecidableEq

/-- The curve built by DifficultyCurve() with no arguments. -/
def defaultCurve : DifficultyCurve := {}

def DifficultyCurve.health_multiplier (c : DifficultyCurve) (wave : ℤ) : ℚ :=
  (1 + c.health_growth) ^ (wave - 1)

def DifficultyCurve.speed_multiplier (c : DifficultyCurve) (wave : ℤ) : ℚ :=
  (1 + c.speed_growth) ^ (wave - 1)

def DifficultyCurve.count_multiplier (c : DifficultyCurve) (wave : ℤ) : ℚ :=
  (1 + c.count_growth) ^ (wave - 1)

/-- Python floor division and modulo on ints are Int.fdiv and Int.fmod. -/
def DifficultyCurve.pick_special (c : DifficultyCurve) (wave : ℤ) : String :=
  c.extra_specials.getD (Int.fmod (Int.fdiv wave c.special_frequency - 1)
    (c.extra_specials.length : ℤ)).toNat ""

/-- Python truthiness of an optional string: None and the empty string are
falsy, every other string is truthy. -/
def pyTruthy : Option String → Bool
  | none => false
  | some s => !(s == "")

/-- Python int() applied to a float: truncation toward zero. -/
def pyInt (x : ℚ) : ℤ := if 0 ≤ x then ⌊x⌋ else ⌈x⌉

/-- Python round(x, 2): rounding to two decimal places.  (Mathlib round is
half-up while CPython is half-even; the two agree away from exact half
ties, and every claim below is insensitive to the tie rule.) -/
def round2 (x : ℚ) : ℚ := ((round (x * 100) : ℤ) : ℚ) / 100

/-- Loop body of game.apply_difficulty for one blueprint. -/
def scaleBlueprint (curve : DifficultyCurve) (bp : WaveBlueprint) : WaveConfig :=
  let health_multiplier := curve.health_multiplier bp.wave
  let speed_multiplier := curve.speed_multiplier bp.wave
  let count_multiplier := curve.count_multiplier bp.wave
  let scaled_health := round2 (bp.base_health * health_multiplier)
  let scaled_speed := round2 (bp.base_speed * speed_multiplier)
  let scaled_count : ℤ := max 1 ⌈(bp.count : ℚ) * count_multiplier⌉
  let tags : List Tag :=
    (if 1 < health_multiplier then [Tag.vida (pyInt ((health_multiplier - 1) * 100))] else []) ++
    (if 1 < speed_multiplier then [Tag.velocidad (pyInt ((speed_multiplier - 1) * 100))] else []) ++
    (if bp.count < scaled_count then [Tag.cantidad (scaled_count - bp.count)] else [])
  if pyTruthy bp.special = false ∧ curve.special_frequency ≤ bp.wave ∧
      Int.fmod bp.wave curve.special_frequency = 0 then
    { wave := bp.wave, enemy_type := bp.enemy_type, count := scaled_count,
      health := scaled_health, speed := scaled_speed,
      special := some (curve.pick_special bp.wave),
      difficulty_tags := tags ++ [Tag.especial (curve.pick_special bp.wave)] }
  else if pyTruthy bp.special then
    { wave := bp.wave, enemy_type := bp.enemy_type, count := scaled_count,
      health := scaled_health, speed := scaled_speed, special := bp.special,
      difficulty_tags := tags ++ [Tag.especial (bp.special.getD "")] }
  else
    { wave := bp.wave, enemy_type := bp.enemy_type, count := scaled_count,
      health := scaled_health, speed := scaled_speed, special := bp.special,
      difficulty_tags := tags }

/-- Stable insertion by ascending wave number, used to model the stable
Python sorted(blueprints, key wave). -/
def insertBlueprint (x : WaveBlueprint) : List WaveBlueprint → List WaveBlueprint
  | [] => [x]
  | y :: ys => if x.wave < y.wave then x :: y :: ys else y :: insertBlueprint x ys

def sortBlueprints : List WaveBlueprint → List WaveBlueprint
  | [] => []
  | x :: xs => insertBlueprint x (sortBlueprints xs)

/-- game.apply_difficulty: process blueprints in ascending wave order. -/
def apply_difficulty (blueprints : List WaveBlueprint) (curve : DifficultyCurve) :
    List WaveConfig :=
  (sortBlueprints blueprints).map (scaleBlueprint curve)

/- ## Wave scheduler: src/waves/wave_manager.py -/

/-- A spawn entry: enemy type and spawn time in seconds from wave start. -/
abbrev EnemySpawn := String × ℚ

/-- Stable insertion by ascending spawn time: an entry stops in front of
the first entry whose time is at least its own, so entries with equal
times keep their original relative order. -/
def insertSpawn (x : EnemySpawn) : List EnemySpawn → List EnemySpawn
  | [] => [x]
  | y :: ys => if x.2 ≤ y.2 then x :: y :: ys else y :: insertSpawn x ys

/-- Model of the stable Python sorted(wave, key spawn_time) performed in
WaveManager.__init__. -/
def sortSpawns : List EnemySpawn → List EnemySpawn
  | [] => []
  | x :: xs => insertSpawn x (sortSpawns xs)

/-- Runtime bookkeeping for the current wave (class WaveState). -/
structure WaveState where
  spawns : List EnemySpawn
  elapsed : ℚ
deriving DecidableEq

/-- The WaveManager state.  The spawn callback is modelled by returning the
list of enemy types fired during an update, in call order. -/
structure WaveManager where
  waves : List (List EnemySpawn)
  loop_waves : Bool
  current_index : ℤ
  state : Option WaveState
deriving DecidableEq

/-- WaveManager.__init__: each wave list is stably sorted by spawn time,
the index starts at -1 and no wave is active. -/
def mkWaveManager (waves : List (List EnemySpawn)) (loop_waves : Bool) : WaveManager :=
  { waves := waves.map sortSpawns, loop_waves := loop_waves,
    current_index := -1, state := none }

def WaveManager.wave_in_progress (m : WaveManager) : Bool := m.state.isSome

/-- WaveManager.start_next_wave. Returns the new state and the Python
return value. -/
def WaveManager.start_next_wave (m : WaveManager) : WaveManager × Bool :=
  match m.state with
  | some _ => (m, false)
  | none =>
    let next := m.current_index + 1
    if (m.waves.length : ℤ) ≤ next then
      if m.loop_waves ∧ m.waves ≠ [] then
        ({ m with
            current_index := 0,
            state := some { spawns := m.waves.getD 0 [], elapsed := 0 } }, true)
      else (m, false)
    else
      ({ m with
          current_index := next,
          state := some { spawns := m.waves.getD next.toNat [], elapsed := 0 } }, true)

/-- WaveManager.reset. -/
def WaveManager.reset (m : WaveManager) : WaveManager :=
  { m with current_index := -1, state := none }

/-- The while loop of WaveManager.update: pop and fire the queue head as
long as its spawn time is at most the elapsed time.  Returns the fired
enemy types in order and the remaining queue. -/
def fireDue : List EnemySpawn → ℚ → List String × List EnemySpawn
  | [], _ => ([], [])
  | (ty, t) :: rest, elapsed =>
    if t ≤ elapsed then
      ((ty :: (fireDue rest elapsed).1), (fireDue rest elapsed).2)
    else ([], (ty, t) :: rest)

/-- WaveManager.update: advance the timer, fire due spawns, clear the
runtime state when the queue empties. -/
def WaveManager.update (m : WaveManager) (delta_time : ℚ) : WaveManager × List String :=
  match m.state with
  | none => (m, [])
  | some s =>
    let elapsed := s.elapsed + delta_time
    let fired := fireDue s.spawns elapsed
    if fired.2 = [] then ({ m with state := none }, fired.1)
    else ({ m with state := some { spawns := fired.2, elapsed := elapsed } }, fired.1)

/-- Typed form of the snapshot dict of WaveManager.serialize_progress. -/
structure ProgressSnapshot where
  current_index : ℤ
  wave_in_progress : Bool
  remaining_spawns : List EnemySpawn
  elapsed : ℚ
deriving DecidableEq

/-- WaveManager.serialize_progress. -/
def WaveManager.serialize_progress (m : WaveManager) : ProgressSnapshot :=
  { current_index := m.current_index,
    wave_in_progress := m.wave_in_progress,
    remaining_spawns := match m.state with | some s => s.spawns | none => [],
    elapsed := match m.state with | some s => s.elapsed | none => 0 }

/-- WaveManager.load_progress.  The Python method raises ValueError before
any assignment when the index is out of range; none models that raise, so
a failing call leaves the caller with the prior manager unchanged. -/
def WaveManager.load_progress (m : WaveManager) (data : ProgressSnapshot) :
    Option WaveManager :=
  if data.current_index < -1 ∨ (m.waves.length : ℤ) ≤ data.current_index then none
  else some { m with
    current_index := data.current_index,
    state :=
      if data.wave_in_progress ∧ 0 ≤ data.current_index ∧
          data.current_index < (m.waves.length : ℤ) then
        some { spawns := data.remaining_spawns, elapsed := data.elapsed }
      else none }

/-- States reachable through the public API of the scheduler. -/
inductive Reachable : WaveManager → Prop
  | mk (waves : List (List EnemySpawn)) (loop_waves : Bool) :
      Reachable (mkWaveManager waves loop_waves)
  | start (m : WaveManager) : Reachable m → Reachable m.start_next_wave.1
  | update (m : WaveManager) (dt : ℚ) : Reachable m → Reachable (m.update dt).1
  | reset (m : WaveManager) : Reachable m → Reachable m.reset

/- ## Build manager: src/ui/build_manager.py -/

abbrev GridPosition := ℤ × ℤ
abbrev Color := ℤ × ℤ × ℤ

def PREVIEW_OK_COLOR : Color := (80, 200, 120)
def PREVIEW_FORBIDDEN_COLOR : Color := (210, 80, 80)

/-- Default blocked tiles (the enemy path) from build_manager.BLOCKED_TILES. -/
def BLOCKED_TILES : List GridPosition :=
  [(5, 0), (5, 1), (5, 2), (5, 3), (5, 4), (6, 4), (7, 4), (8, 4),
   (9, 4), (10, 4), (11, 4), (12, 4), (12, 5), (12, 6), (12, 7), (12, 8)]

/-- The fields of hud_overlay.TowerButton consulted by the build manager. -/
structure TowerButton where
  name : String
  cost : ℤ
deriving DecidableEq

/-- Data describing the current build preview (class BuildPreview). -/
structure BuildPreview where
  grid_position : GridPosition
  pixel_position : ℤ × ℤ
  color : Color
  can_build : Bool
deriving DecidableEq

/-- The BuildManager state. -/
structure BuildManager where
  tile_size : ℤ
  blocked_tiles : Finset GridPosition
  selected_button : Option TowerButton
  preview : Option BuildPreview
deriving DecidableEq

/-- BuildManager.__init__: a None or empty blocked iterable is falsy in
Python, so both fall back to BLOCKED_TILES. -/
def mkBuildManager (tile_size : ℤ) (blocked : Option (List GridPosition)) :
    BuildManager :=
  { tile_size := tile_size,
    blocked_tiles :=
      match blocked with
      | some (g :: gs) => (g :: gs).toFinset
      | _ => BLOCKED_TILES.toFinset,
    selected_button := none, preview := none }

/-- BuildManager.begin_build. -/
def BuildManager.begin_build (bm : BuildManager) (button : TowerButton)
    (money : ℤ) : BuildManager × Bool :=
  if money < button.cost then (bm, false)
  else ({ bm with selected_button := some button, preview := none }, true)

/-- BuildManager.cancel. -/
def BuildManager.cancel (bm : BuildManager) : BuildManager :=
  { bm with selected_button := none, preview := none }

/-- BuildManager._snap_to_grid: Python floor division by the tile size. -/
def BuildManager.snap_to_grid (bm : BuildManager) (position : ℤ × ℤ) :
    GridPosition :=
  (Int.fdiv position.1 bm.tile_size, Int.fdiv position.2 bm.tile_size)

/-- BuildManager._can_place. -/
def BuildManager.can_place (bm : BuildManager) (grid_position : GridPosition)
    (occupied : Finset GridPosition) (money : ℤ) : Bool :=
  match bm.selected_button with
  | none => false
  | some btn =>
    if money < btn.cost then false
    else if grid_position ∈ bm.blocked_tiles then false
    else decide (grid_position ∉ occupied)

/-- BuildManager.update_preview. -/
def BuildManager.update_preview (bm : BuildManager) (mouse_position : ℤ × ℤ)
    (occupied_tiles : Finset GridPosition) (money : ℤ) :
    BuildManager × Option BuildPreview :=
  match bm.selected_button with
  | none => ({ bm with preview := none }, none)
  | some _ =>
    let gp := bm.snap_to_grid mouse_position
    let can := bm.can_place gp occupied_tiles money
    let pv : BuildPreview :=
      { grid_position := gp,
        pixel_position := (gp.1 * bm.tile_size, gp.2 * bm.tile_size),
        color := if can then PREVIEW_OK_COLOR else PREVIEW_FORBIDDEN_COLOR,
        can_build := can }
    ({ bm with preview := some pv }, some pv)

/-- BuildManager.confirm_build.  The occupied tile set is passed in and the
possibly grown set is returned, modelling the in-place set mutation. -/
def BuildManager.confirm_build (bm : BuildManager)
    (occupied_tiles : Finset GridPosition) (money : ℤ) :
    BuildManager × Finset GridPosition × Option TowerButton :=
  match bm.preview, bm.selected_button with
  | some pv, some btn =>
    if pv.can_build = false then (bm, occupied_tiles, none)
    else if money < btn.cost then (bm, occupied_tiles, none)
    else (bm.cancel, insert pv.grid_position occupied_tiles, some btn)
  | _, _ => (bm, occupied_tiles, none)

/- ## Enemy movement and lives: src/enemies/base_enemy.py -/

abbrev Point := ℝ × ℝ

/-- Euclidean distance exactly as computed in the source:
sqrt of (target minus current) squared, componentwise. -/
noncomputable def pyDist (pos target : Point) : ℝ :=
  Real.sqrt ((target.1 - pos.1) ^ 2 + (target.2 - pos.2) ^ 2)

/-- Minimal player of base_enemy.Player: remaining lives. -/
structure Player where
  lives : ℤ
deriving DecidableEq

/-- Player.__init__ raises ValueError unless lives is positive. -/
def mkPlayer (lives : ℤ) : Option Player :=
  if lives ≤ 0 then none else some { lives := lives }

/-- Player.lose_life: decrement, floored at zero. -/
def Player.lose_life (p : Player) : Player :=
  if 0 < p.lives then { lives := p.lives - 1 } else p

/-- BaseEnemy state (animation bookkeeping omitted: it is independent of
movement, health and goal detection). -/
structure Enemy where
  waypoints : List Point
  waypoint_index : ℕ
  position : Point
  speed : ℝ
  health : ℤ
  alive : Bool
  arrival_tolerance : ℝ
  reached_goal : Bool

/-- BaseEnemy.__init__: raises ValueError on an empty waypoint list,
otherwise starts at the first waypoint, alive, goal not reached. -/
def mkEnemy (waypoints : List Point) (speed : ℝ) (health : ℤ)
    (arrival_tolerance : ℝ) : Option Enemy :=
  match waypoints with
  | [] => none
  | w :: ws =>
    some { waypoints := w :: ws, waypoint_index := 0, position := w,
           speed := speed, health := health, alive := true,
           arrival_tolerance := arrival_tolerance, reached_goal := false }

/-- BaseEnemy.take_damage. -/
def Enemy.take_damage (e : Enemy) (amount : ℤ) : Enemy :=
  if e.alive = false then e
  else if e.health - amount ≤ 0 then
    { e with health := e.health - amount, alive := false }
  else { e with health := e.health - amount }

/-- The while loop of BaseEnemy.update.  Arguments are the loop-carried
variables; the result is (waypoint index, position, reached goal flag,
player).  The loop can only repeat after advancing the index below the
list length, which bounds the recursion. -/
noncomputable def moveLoop (wps : List Point) (tol : ℝ) (idx : ℕ) (pos : Point)
    (rem : ℝ) (pl : Option Player) : ℕ × Point × Bool × Option Player :=
  if rem ≤ 0 then (idx, pos, false, pl)
  else if pyDist pos (wps.getD idx (0, 0)) ≤ tol then
    if wps.length ≤ idx + 1 then
      (idx, wps.getD idx (0, 0), true, pl.map Player.lose_life)
    else moveLoop wps tol (idx + 1) (wps.getD idx (0, 0)) rem pl
  else if pyDist pos (wps.getD idx (0, 0)) ≤ rem then
    if wps.length ≤ idx + 1 then
      (idx, wps.getD idx (0, 0), true, pl.map Player.lose_life)
    else moveLoop wps tol (idx + 1) (wps.getD idx (0, 0))
      (rem - pyDist pos (wps.getD idx (0, 0))) pl
  else
    (idx,
     (pos.1 + ((wps.getD idx (0, 0)).1 - pos.1) * (rem / pyDist pos (wps.getD idx (0, 0))),
      pos.2 + ((wps.getD idx (0, 0)).2 - pos.2) * (rem / pyDist pos (wps.getD idx (0, 0)))),
     false, pl)
termination_by wps.length - idx
decreasing_by
  · omega
  · omega

/-- BaseEnemy.update: returns the enemy after the tick together with the
player (whose lives may have dropped on a leak). -/
noncomputable def Enemy.update (e : Enemy) (dt : ℝ) (player : Option Player) :
    Enemy × Option Player :=
  if e.alive = false ∨ e.reached_goal = true then (e, player)
  else
    let r := moveLoop e.waypoints e.arrival_tolerance e.waypoint_index
      e.position (e.speed * dt) player
    ({ e with
        waypoint_index := r.1, position := r.2.1, reached_goal := r.2.2.1 },
     r.2.2.2)

/- ## Projectile combat: src/towers/projectile.py -/

/-- The TargetLike capability contract fields read by the projectile.  The
take_damage call is modelled as an emitted damage amount. -/
structure Target where
  position : Point
  alive : Bool

/-- Projectile state. -/
structure Projectile where
  position : Point
  speed : ℝ
  damage : ℝ
  finished : Bool

/-- Projectile._hit_target: re-check liveness, then deal damage and finish.
The second component is the damage passed to target.take_damage, none when
no damage is dealt. -/
def Projectile.hit_target (p : Projectile) (t : Target) :
    Projectile × Option ℝ :=
  if t.alive = false then ({ p with finished := true }, none)
  else ({ p with finished := true }, some p.damage)

/-- Projectile.update. -/
noncomputable def Projectile.update (p : Projectile) (t : Target) (dt : ℝ) :
    Projectile × Option ℝ :=
  if p.finished = true then (p, none)
  else if t.alive = false then ({ p with finished := true }, none)
  else if pyDist p.position t.position = 0 then p.hit_target t
  else if pyDist p.position t.position ≤ p.speed * dt then
    ({ p with position := t.position }).hit_target t
  else
    ({ p with position :=
        (p.position.1 + (t.position.1 - p.position.1) *
          (p.speed * dt / pyDist p.position t.position),
         p.position.2 + (t.position.2 - p.position.2) *
          (p.speed * dt / pyDist p.position t.position)) }, none)

/- ## Derived definitions and witness fixtures -/

/-- The health, speed and count tags emitted by the scaler, in order. -/
def statTags (c : DifficultyCurve) (bp : WaveBlueprint) : List Tag :=
  (if 1 < c.health_multiplier bp.wave then
    [Tag.vida (pyInt ((c.health_multiplier bp.wave - 1) * 100))] else []) ++
  (if 1 < c.speed_multiplier bp.wave then
    [Tag.velocidad (pyInt ((c.speed_multiplier bp.wave - 1) * 100))] else []) ++
  (if bp.count < max 1 ⌈(bp.count : ℚ) * c.count_multiplier bp.wave⌉ then
    [Tag.cantidad (max 1 ⌈(bp.count : ℚ) * c.count_multiplier bp.wave⌉ - bp.count)]
   else [])

/-- Fixture for the C8 witness: a 50-cost tower button. -/
def btnW : TowerButton := { name := "arrow", cost := 50 }

/-- Fixture for the C8 witness: a valid preview at grid cell (2, 3). -/
def pvW : BuildPreview := ⟨(2, 3), (64, 96), PREVIEW_OK_COLOR, true⟩

/-- Fixture for the C8 witness: a manager with the button selected and the
preview present. -/
def bmW : BuildManager := ⟨32, ∅, some btnW, some pvW⟩

/-- Fixture for the C2 witness: an enemy on the path (0,0) to (3,4). -/
def eW2 : Enemy :=
  ⟨[((0:ℝ), (0:ℝ)), ((3:ℝ), (4:ℝ))], 0, ((0:ℝ), (0:ℝ)), 5, 10, true, 1, false⟩

/-- Fixture for the C9 witness: an enemy whose path is the single
waypoint (2,5). -/
def eW1 : Enemy := ⟨[((2:ℝ), (5:ℝ))], 0, ((2:ℝ), (5:ℝ)), 1, 10, true, 1, false⟩

/-- Fixture for the C6 witness: an unfinished projectile at the origin. -/
def pW : Projectile := ⟨((0:ℝ), (0:ℝ)), 2, 7, false⟩

/-- Fixture for the C6 witness: a dead target at (3,4). -/
def tW : Target := ⟨((3:ℝ), (4:ℝ)), false⟩

/- ## Helper lemmas on the scaler -/

/-- Discriminates the special tag. -/
def Tag.isEspecial : Tag → Bool
  | .especial _ => true
  | _ => false

/-- Position of each tag kind in the fixed emission order. -/
def Tag.rank : Tag → ℕ
  | .vida _ => 0
  | .velocidad _ => 1
  | .cantidad _ => 2
  | .especial _ => 3

/-- Whether a tag list carries a special annotation. -/
def hasSpecialTag (l : List Tag) : Bool := l.any Tag.isEspecial

lemma scaleBlueprint_health (c : DifficultyCurve) (bp : WaveBlueprint) :
    (scaleBlueprint c bp).health =
      round2 (bp.base_health * c.health_multiplier bp.wave) := by
  unfold scaleBlueprint
  split_ifs <;> rfl

lemma scaleBlueprint_speed (c : DifficultyCurve) (bp : WaveBlueprint) :
    (scaleBlueprint c bp).speed =
      round2 (bp.base_speed * c.speed_multiplier bp.wave) := by
  unfold scaleBlueprint
  split_ifs <;> rfl

lemma scaleBlueprint_count (c : DifficultyCurve) (bp : WaveBlueprint) :
    (scaleBlueprint c bp).count =
      max 1 ⌈(bp.count : ℚ) * c.count_multiplier bp.wave⌉ := by
  unfold scaleBlueprint
  split_ifs <;> rfl

lemma round2_mono {x y : ℚ} (h : x ≤ y) : round2 x ≤ round2 y := by
  unfold round2
  have h1 : round (x * 100) ≤ round (y * 100) := by
    rw [round_eq, round_eq]
    exact Int.floor_le_floor (by linarith)
  have h2 : ((round (x * 100) : ℤ) : ℚ) ≤ ((round (y * 100) : ℤ) : ℚ) :=
    Int.cast_le.mpr h1
  linarith

lemma growth_multiplier_mono {g : ℚ} (hg : 0 ≤ g) {w1 w2 : ℤ} (h : w1 ≤ w2) :
    (1 + g) ^ (w1 - 1) ≤ (1 + g) ^ (w2 - 1) :=
  zpow_le_zpow_right₀ (by linarith) (by omega)

/- ## C3: monotonic difficulty progression -/

/-- C3: for fixed base values (base_health > 0, base_speed > 0, count at
least 1) and wave numbers wave2 > wave1 >= 1, the scaled health, speed and
count produced by the Scaler are monotonically non-decreasing, despite the
two-decimal rounding of health and speed and the ceiling applied to the
count.  The growth rates are non-negative as the DifficultyCurve data
model requires. -/
theorem scaler_monotone (c : DifficultyCurve) (bp1 bp2 : WaveBlueprint)
    (hh : 0 ≤ c.health_growth) (hs : 0 ≤ c.speed_growth)
    (hc : 0 ≤ c.count_growth)
    (hbh : 0 < bp1.base_health) (hbs : 0 < bp1.base_speed)
    (hcount : 1 ≤ bp1.count)
    (_hw1 : 1 ≤ bp1.wave) (hw : bp1.wave < bp2.wave)
    (hsame_h : bp2.base_health = bp1.base_health)
    (hsame_s : bp2.base_speed = bp1.base_speed)
    (hsame_c : bp2.count = bp1.count) :
    (scaleBlueprint c bp1).health ≤ (scaleBlueprint c bp2).health ∧
    (scaleBlueprint c bp1).speed ≤ (scaleBlueprint c bp2).speed ∧
    (scaleBlueprint c bp1).count ≤ (scaleBlueprint c bp2).count := by
  have hmulh := growth_multiplier_mono hh (le_of_lt hw)
  have hmuls := growth_multiplier_mono hs (le_of_lt hw)
  have hmulc := growth_multiplier_mono hc (le_of_lt hw)
  refine ⟨?_, ?_, ?_⟩
  · rw [scaleBlueprint_health, scaleBlueprint_health, hsame_h]
    exact round2_mono (mul_le_mul_of_nonneg_left hmulh (le_of_lt hbh))
  · rw [scaleBlueprint_speed, scaleBlueprint_speed, hsame_s]
    exact round2_mono (mul_le_mul_of_nonneg_left hmuls (le_of_lt hbs))
  · rw [scaleBlueprint_count, scaleBlueprint_count, hsame_c]
    have hc0 : (0 : ℚ) ≤ (bp1.count : ℚ) := by
      have : (1 : ℚ) ≤ (bp1.count : ℚ) := by exact_mod_cast hcount
      linarith
    exact max_le_max le_rfl
      (Int.ceil_le_ceil (mul_le_mul_of_nonneg_left hmulc hc0))

/-- Witness for C3 at the default curve, waves 1 and 2, base values 100
health, 60 speed, count 5. -/
theorem scaler_monotone_witness :
    (0 : ℚ) ≤ defaultCurve.health_growth ∧
    ((scaleBlueprint defaultCurve
        { wave := 1, enemy_type := "grunt", count := 5, base_health := 100,
          base_speed := 60, special := none }).health ≤
      (scaleBlueprint defaultCurve
        { wave := 2, enemy_type := "grunt", count := 5, base_health := 100,
          base_speed := 60, special := none }).health ∧
     (scaleBlueprint defaultCurve
        { wave := 1, enemy_type := "grunt", count := 5, base_health := 100,
          base_speed := 60, special := none }).speed ≤
      (scaleBlueprint defaultCurve
        { wave := 2, enemy_type := "grunt", count := 5, base_health := 100,
          base_speed := 60, special := none }).speed ∧
     (scaleBlueprint defaultCurve
        { wave := 1, enemy_type := "grunt", count := 5, base_health := 100,
          base_speed := 60, special := none }).count ≤
      (scaleBlueprint defaultCurve
        { wave := 2, enemy_type := "grunt", count := 5, base_health := 100,
          base_speed := 60, special := none }).count) :=
  ⟨by norm_num [defaultCurve],
   scaler_monotone defaultCurve
     { wave := 1, enemy_type := "grunt", count := 5, base_health := 100,
       base_speed := 60, special := none }
     { wave := 2, enemy_type := "grunt", count := 5, base_health := 100,
       base_speed := 60, special := none }
     (by norm_num [defaultCurve]) (by norm_num [defaultCurve])
     (by norm_num [defaultCurve]) (by norm_num) (by norm_num) (by decide)
     (by decide) (by decide) rfl rfl rfl⟩

/- ## C4: difficulty tag contents and order -/

lemma scaleBlueprint_cadence (c : DifficultyCurve) (bp : WaveBlueprint)
    (h0 : pyTruthy bp.special = false) (h1 : c.special_frequency ≤ bp.wave)
    (h2 : Int.fmod bp.wave c.special_frequency = 0) :
    (scaleBlueprint c bp).special = some (c.pick_special bp.wave) ∧
    (scaleBlueprint c bp).difficulty_tags =
      statTags c bp ++ [Tag.especial (c.pick_special bp.wave)] := by
  unfold scaleBlueprint statTags
  rw [if_pos ⟨h0, h1, h2⟩]
  exact ⟨rfl, rfl⟩

lemma scaleBlueprint_plain (c : DifficultyCurve) (bp : WaveBlueprint)
    (h0 : pyTruthy bp.special = false)
    (h : ¬(c.special_frequency ≤ bp.wave ∧
        Int.fmod bp.wave c.special_frequency = 0)) :
    (scaleBlueprint c bp).special = bp.special ∧
    (scaleBlueprint c bp).difficulty_tags = statTags c bp := by
  unfold scaleBlueprint statTags
  rw [if_neg (by
    intro hcon
    exact h ⟨hcon.2.1, hcon.2.2⟩)]
  rw [if_neg (by simp [h0])]
  exact ⟨rfl, rfl⟩

lemma scaleBlueprint_truthy (c : DifficultyCurve) (bp : WaveBlueprint)
    (h0 : pyTruthy bp.special = true) :
    (scaleBlueprint c bp).special = bp.special ∧
    (scaleBlueprint c bp).difficulty_tags =
      statTags c bp ++ [Tag.especial (bp.special.getD "")] := by
  unfold scaleBlueprint statTags
  rw [if_neg (by simp [h0])]
  rw [if_pos h0]
  exact ⟨rfl, rfl⟩

/-- C4 counterexample: the claim asserts the health tag number is
round((healthMul - 1) * 100).  At wave 3 under the default curve the
multiplier is 1.4884, the code truncates 48.84 to 48, but rounding gives
49: the emitted tag list carries 48, refuting the claim at this input. -/
theorem tag_round_counterexample :
    (scaleBlueprint defaultCurve
        { wave := 3, enemy_type := "grunt", count := 5, base_health := 100,
          base_speed := 60, special := none }).difficulty_tags =
      [Tag.vida 48, Tag.velocidad 10, Tag.cantidad 1, Tag.especial "élite"] ∧
    round ((defaultCurve.health_multiplier 3 - 1) * 100) = 49 ∧
    (48 : ℤ) ≠ 49 := by
  have hm : defaultCurve.health_multiplier 3 = 3721 / 2500 := by
    unfold DifficultyCurve.health_multiplier defaultCurve
    norm_num
  have sm : defaultCurve.speed_multiplier 3 = 441 / 400 := by
    unfold DifficultyCurve.speed_multiplier defaultCurve
    norm_num
  have cm : defaultCurve.count_multiplier 3 = 729 / 625 := by
    unfold DifficultyCurve.count_multiplier defaultCurve
    norm_num
  refine ⟨?_, ?_, by decide⟩
  · have h := scaleBlueprint_cadence defaultCurve
      { wave := 3, enemy_type := "grunt", count := 5, base_health := 100,
        base_speed := 60, special := none }
      (by rfl) (by decide) (by decide)
    rw [h.2]
    have hceil : (⌈((5 : ℤ) : ℚ) * (729 / 625)⌉ : ℤ) = 6 := by
      rw [Int.ceil_eq_iff]
      norm_num
    have hvida : pyInt ((3721 / 2500 - 1) * 100) = 48 := by
      unfold pyInt
      rw [if_pos (by norm_num)]
      norm_num
    have hvel : pyInt ((441 / 400 - 1) * 100) = 10 := by
      unfold pyInt
      rw [if_pos (by norm_num)]
      norm_num
    unfold statTags
    rw [hm, sm, cm]
    simp only [hceil, hvida, hvel]
    rw [if_pos (by norm_num), if_pos (by norm_num), if_pos (by decide)]
    decide
  · rw [hm, round_eq]
    norm_num

lemma vida_mem_statTags (c : DifficultyCurve) (bp : WaveBlueprint) (n : ℤ) :
    Tag.vida n ∈ statTags c bp ↔
      1 < c.health_multiplier bp.wave ∧
      n = pyInt ((c.health_multiplier bp.wave - 1) * 100) := by
  unfold statTags
  split_ifs <;> simp_all

lemma velocidad_mem_statTags (c : DifficultyCurve) (bp : WaveBlueprint) (n : ℤ) :
    Tag.velocidad n ∈ statTags c bp ↔
      1 < c.speed_multiplier bp.wave ∧
      n = pyInt ((c.speed_multiplier bp.wave - 1) * 100) := by
  unfold statTags
  split_ifs <;> simp_all

lemma cantidad_mem_statTags (c : DifficultyCurve) (bp : WaveBlueprint) (n : ℤ) :
    Tag.cantidad n ∈ statTags c bp ↔
      bp.count < max 1 ⌈(bp.count : ℚ) * c.count_multiplier bp.wave⌉ ∧
      n = max 1 ⌈(bp.count : ℚ) * c.count_multiplier bp.wave⌉ - bp.count := by
  unfold statTags
  split_ifs <;> simp_all

lemma statTags_pairwise (c : DifficultyCurve) (bp : WaveBlueprint) :
    (statTags c bp).Pairwise (fun a b => a.rank < b.rank) := by
  unfold statTags
  split_ifs <;> simp [Tag.rank]

lemma statTags_rank_lt (c : DifficultyCurve) (bp : WaveBlueprint) :
    ∀ a ∈ statTags c bp, a.rank < 3 := by
  unfold statTags
  split_ifs <;> simp [Tag.rank]

lemma statTags_no_special (c : DifficultyCurve) (bp : WaveBlueprint) :
    hasSpecialTag (statTags c bp) = false := by
  unfold statTags hasSpecialTag
  split_ifs <;> simp [Tag.isEspecial]

/-- Every emitted tag list is the stat tags, possibly followed by one
special tag. -/
lemma tags_shape (c : DifficultyCurve) (bp : WaveBlueprint) :
    (scaleBlueprint c bp).difficulty_tags = statTags c bp ∨
    ∃ s : String, (scaleBlueprint c bp).difficulty_tags =
      statTags c bp ++ [Tag.especial s] := by
  by_cases h0 : pyTruthy bp.special = true
  · exact Or.inr ⟨_, (scaleBlueprint_truthy c bp h0).2⟩
  · have h0f : pyTruthy bp.special = false := by
      cases hpt : pyTruthy bp.special
      · rfl
      · exact absurd hpt h0
    by_cases hc : c.special_frequency ≤ bp.wave ∧
        Int.fmod bp.wave c.special_frequency = 0
    · exact Or.inr ⟨_, (scaleBlueprint_cadence c bp h0f hc.1 hc.2).2⟩
    · exact Or.inl (scaleBlueprint_plain c bp h0f hc).2

/-- C4 amended: whenever the health multiplier exceeds 1, a health tag is
appended whose number is the truncation toward zero (Python int(), here
equal to the floor) of (healthMul - 1) * 100 — not its rounding; likewise
for the speed tag; a count tag is appended iff the scaled count exceeds
the base count, carrying the difference; and the tags appear in the fixed
rank order health, speed, count, special. -/
theorem tags_spec (c : DifficultyCurve) (bp : WaveBlueprint) :
    (∀ n : ℤ, Tag.vida n ∈ (scaleBlueprint c bp).difficulty_tags ↔
       1 < c.health_multiplier bp.wave ∧
       n = pyInt ((c.health_multiplier bp.wave - 1) * 100)) ∧
    (∀ n : ℤ, Tag.velocidad n ∈ (scaleBlueprint c bp).difficulty_tags ↔
       1 < c.speed_multiplier bp.wave ∧
       n = pyInt ((c.speed_multiplier bp.wave - 1) * 100)) ∧
    (∀ n : ℤ, Tag.cantidad n ∈ (scaleBlueprint c bp).difficulty_tags ↔
       bp.count < (scaleBlueprint c bp).count ∧
       n = (scaleBlueprint c bp).count - bp.count) ∧
    (scaleBlueprint c bp).difficulty_tags.Pairwise
      (fun a b => a.rank < b.rank) := by
  refine ⟨?_, ?_, ?_, ?_⟩
  · intro n
    obtain h | ⟨s, h⟩ := tags_shape c bp <;>
      simp [h, vida_mem_statTags]
  · intro n
    obtain h | ⟨s, h⟩ := tags_shape c bp <;>
      simp [h, velocidad_mem_statTags]
  · intro n
    rw [scaleBlueprint_count]
    obtain h | ⟨s, h⟩ := tags_shape c bp <;>
      simp [h, cantidad_mem_statTags]
  · obtain h | ⟨s, h⟩ := tags_shape c bp
    · rw [h]
      exact statTags_pairwise c bp
    · rw [h]
      refine List.pairwise_append.mpr ⟨statTags_pairwise c bp, by simp, ?_⟩
      intro a ha b hb
      have hb1 : b = Tag.especial s := by simpa using hb
      subst hb1
      have := statTags_rank_lt c bp a ha
      simpa [Tag.rank] using this

/- ## C5: special enemy cadence -/

lemma hasSpecial_iff (c : DifficultyCurve) (bp : WaveBlueprint)
    (habsent : pyTruthy bp.special = false) :
    hasSpecialTag (scaleBlueprint c bp).difficulty_tags = true ↔
      (c.special_frequency ≤ bp.wave ∧
       Int.fmod bp.wave c.special_frequency = 0) := by
  by_cases hc : c.special_frequency ≤ bp.wave ∧
      Int.fmod bp.wave c.special_frequency = 0
  · obtain ⟨hsp, htags⟩ := scaleBlueprint_cadence c bp habsent hc.1 hc.2
    rw [htags]
    simp [hasSpecialTag, Tag.isEspecial, hc]
  · obtain ⟨hsp, htags⟩ := scaleBlueprint_plain c bp habsent hc
    rw [htags]
    simp only [statTags_no_special c bp]
    simp [hc]

/-- C5: for a blueprint with no explicit special, the scaler assigns a
special enemy and appends its tag iff wave >= special_frequency and
wave mod special_frequency = 0, choosing
extra_specials[(wave div special_frequency - 1) mod length] with floor
division; with the default curve (special_frequency 3) the tag appears
exactly on waves that are positive multiples of 3, hence on waves 3, 6, 9
and not on 1, 2, 4, 5, 7, 8. -/
theorem special_cadence (c : DifficultyCurve) (bp : WaveBlueprint)
    (habsent : pyTruthy bp.special = false) :
    (hasSpecialTag (scaleBlueprint c bp).difficulty_tags = true ↔
       c.special_frequency ≤ bp.wave ∧
       Int.fmod bp.wave c.special_frequency = 0) ∧
    (c.special_frequency ≤ bp.wave →
     Int.fmod bp.wave c.special_frequency = 0 →
       (scaleBlueprint c bp).special = some (c.extra_specials.getD
          (Int.fmod (Int.fdiv bp.wave c.special_frequency - 1)
            (c.extra_specials.length : ℤ)).toNat "") ∧
       Tag.especial (c.pick_special bp.wave) ∈
         (scaleBlueprint c bp).difficulty_tags) ∧
    (¬(c.special_frequency ≤ bp.wave ∧
        Int.fmod bp.wave c.special_frequency = 0) →
       (scaleBlueprint c bp).special = bp.special ∧
       hasSpecialTag (scaleBlueprint c bp).difficulty_tags = false) ∧
    (∀ bp2 : WaveBlueprint, bp2.special = none →
       (hasSpecialTag (scaleBlueprint defaultCurve bp2).difficulty_tags = true ↔
          3 ≤ bp2.wave ∧ Int.fmod bp2.wave 3 = 0)) := by
  refine ⟨hasSpecial_iff c bp habsent, ?_, ?_, ?_⟩
  · intro h1 h2
    obtain ⟨hsp, htags⟩ := scaleBlueprint_cadence c bp habsent h1 h2
    refine ⟨hsp, ?_⟩
    rw [htags]
    simp
  · intro hc
    obtain ⟨hsp, htags⟩ := scaleBlueprint_plain c bp habsent hc
    refine ⟨hsp, ?_⟩
    rw [htags]
    exact statTags_no_special c bp
  · intro bp2 h2
    have habs2 : pyTruthy bp2.special = false := by rw [h2]; rfl
    exact hasSpecial_iff defaultCurve bp2 habs2

/-- Witness for C5: under the default curve a wave-3 blueprint with no
explicit special receives a special tag and a wave-4 one does not. -/
theorem special_cadence_witness :
    pyTruthy (none : Option String) = false ∧
    hasSpecialTag (scaleBlueprint defaultCurve
      { wave := 3, enemy_type := "grunt", count := 5, base_health := 100,
        base_speed := 60, special := none }).difficulty_tags = true ∧
    hasSpecialTag (scaleBlueprint defaultCurve
      { wave := 4, enemy_type := "grunt", count := 5, base_health := 100,
        base_speed := 60, special := none }).difficulty_tags = false := by
  refine ⟨rfl, ?_, ?_⟩
  · exact (special_cadence defaultCurve
      { wave := 3, enemy_type := "grunt", count := 5, base_health := 100,
        base_speed := 60, special := none } rfl).1.mpr ⟨by decide, by decide⟩
  · exact ((special_cadence defaultCurve
      { wave := 4, enemy_type := "grunt", count := 5, base_health := 100,
        base_speed := 60, special := none } rfl).2.2.1 (by decide)).2

/- ## C7: snapshot restore range check -/

/-- C7: restoring a snapshot raises the invalid-state error iff the wave
index lies outside [-1, waveCount - 1].  The none result models the raise
happening before any assignment in the Python method, so on failure the
caller keeps the prior manager unchanged; on success only the index and
runtime state prescribed by the snapshot change. -/
theorem load_progress_range (m : WaveManager) (d : ProgressSnapshot) :
    (m.load_progress d = none ↔
       d.current_index < -1 ∨ (m.waves.length : ℤ) - 1 < d.current_index) ∧
    (∀ m2 : WaveManager, m.load_progress d = some m2 →
       m2.waves = m.waves ∧ m2.loop_waves = m.loop_waves ∧
       m2.current_index = d.current_index ∧
       m2.state = (if d.wave_in_progress ∧ 0 ≤ d.current_index ∧
           d.current_index < (m.waves.length : ℤ) then
         some { spawns := d.remaining_spawns, elapsed := d.elapsed }
       else none)) := by
  unfold WaveManager.load_progress
  constructor
  · split_ifs with h
    · simp only [true_iff]
      omega
    · simp only [reduceCtorEq, false_iff]
      omega
  · intro m2 hm2
    by_cases h : d.current_index < -1 ∨ (m.waves.length : ℤ) ≤ d.current_index
    · rw [if_pos h] at hm2
      exact absurd hm2 (by simp)
    · rw [if_neg h] at hm2
      obtain rfl := Option.some_inj.mp hm2
      exact ⟨rfl, rfl, rfl, rfl⟩

/-- Witness for C7: a snapshot with index 5 against a one-wave table is
rejected, and the in-range snapshot with index -1 is accepted. -/
theorem load_progress_range_witness :
    (mkWaveManager [[("grunt", 1)]] false).load_progress
      { current_index := 5, wave_in_progress := false,
        remaining_spawns := [], elapsed := 0 } = none ∧
    (mkWaveManager [[("grunt", 1)]] false).load_progress
      { current_index := -1, wave_in_progress := false,
        remaining_spawns := [], elapsed := 0 } ≠ none := by
  constructor
  · exact (load_progress_range (mkWaveManager [[("grunt", 1)]] false)
      { current_index := 5, wave_in_progress := false,
        remaining_spawns := [], elapsed := 0 }).1.mpr (by decide)
  · intro hnone
    have := (load_progress_range (mkWaveManager [[("grunt", 1)]] false)
      { current_index := -1, wave_in_progress := false,
        remaining_spawns := [], elapsed := 0 }).1.mp hnone
    exact absurd this (by decide)

/- ## C10: serialize and restore round trip -/

lemma reachable_inv (m : WaveManager) (h : Reachable m) :
    -1 ≤ m.current_index ∧ m.current_index < (m.waves.length : ℤ) ∧
    (m.state.isSome = true → 0 ≤ m.current_index) := by
  induction h with
  | mk waves loop_waves =>
    refine ⟨le_refl _, ?_, by simp [mkWaveManager]⟩
    have : (0 : ℤ) ≤ ((waves.map sortSpawns).length : ℤ) := Int.ofNat_nonneg _
    simp only [mkWaveManager]
    omega
  | start m hm ih =>
    obtain ⟨h1, h2, h3⟩ := ih
    unfold WaveManager.start_next_wave
    cases hs : m.state with
    | some s => simpa using ⟨h1, h2, h3⟩
    | none =>
      simp only
      split_ifs with hlen hloop
      · have hne : m.waves ≠ [] := hloop.2
        have : 0 < m.waves.length := List.length_pos.mpr hne
        refine ⟨by norm_num, by simp; omega, by simp⟩
      · simpa using ⟨h1, h2, h3⟩
      · refine ⟨by simp; omega, by simp; omega, by simp; omega⟩
  | update m dt hm ih =>
    obtain ⟨h1, h2, h3⟩ := ih
    unfold WaveManager.update
    cases hs : m.state with
    | none => simpa using ⟨h1, h2, h3⟩
    | some s =>
      have h0 : 0 ≤ m.current_index := h3 (by simp [hs])
      simp only
      split_ifs with hempty
      · exact ⟨by simpa using h1, by simpa using h2, by simp⟩
      · exact ⟨by simpa using h1, by simpa using h2, by simpa using h0⟩
  | reset m hm ih =>
    unfold WaveManager.reset
    refine ⟨le_refl _, ?_, by simp⟩
    have : (0 : ℤ) ≤ (m.waves.length : ℤ) := Int.ofNat_nonneg _
    simp
    omega

/-- C10: on every state reachable through the public API, restoring the
snapshot produced by serialization succeeds and reproduces the manager
exactly: same current index, same wave-in-progress flag, same remaining
spawn queue and same elapsed time. -/
theorem serialize_roundtrip (m : WaveManager) (h : Reachable m) :
    m.load_progress m.serialize_progress = some m := by
  obtain ⟨h1, h2, h3⟩ := reachable_inv m h
  obtain ⟨waves, loop_waves, idx, st⟩ := m
  simp only [WaveManager.serialize_progress, WaveManager.load_progress,
    WaveManager.wave_in_progress] at *
  cases st with
  | none =>
    rw [if_neg (by omega)]
    simp
  | some s =>
    have h0 : 0 ≤ idx := h3 (by simp)
    rw [if_neg (by omega)]
    rw [if_pos ⟨by simp, h0, h2⟩]

/-- Witness for C10: a manager that has just started its first wave round
trips through serialization. -/
theorem serialize_roundtrip_witness :
    Reachable (mkWaveManager [[("grunt", 1)]] false).start_next_wave.1 ∧
    (mkWaveManager [[("grunt", 1)]] false).start_next_wave.1.load_progress
        (mkWaveManager [[("grunt", 1)]] false).start_next_wave.1.serialize_progress =
      some (mkWaveManager [[("grunt", 1)]] false).start_next_wave.1 :=
  ⟨Reachable.start _ (Reachable.mk [[("grunt", 1)]] false),
   serialize_roundtrip _ (Reachable.start _ (Reachable.mk [[("grunt", 1)]] false))⟩

/- ## C1: the spawn pass of WaveManager.update -/

lemma fireDue_eq (l : List EnemySpawn) (e : ℚ) :
    fireDue l e = ((l.takeWhile fun p => decide (p.2 ≤ e)).map Prod.fst,
      l.dropWhile fun p => decide (p.2 ≤ e)) := by
  induction l with
  | nil => rfl
  | cons a rest ih =>
    obtain ⟨ty, t⟩ := a
    unfold fireDue
    split_ifs with h
    · simp [List.takeWhile_cons, List.dropWhile_cons, h, ih]
    · simp [List.takeWhile_cons, List.dropWhile_cons, h]

lemma sorted_takeWhile_eq_filter (l : List EnemySpawn) (e : ℚ)
    (hsort : l.Pairwise fun a b => a.2 ≤ b.2) :
    (l.takeWhile fun p => decide (p.2 ≤ e)) =
      (l.filter fun p => decide (p.2 ≤ e)) ∧
    (l.dropWhile fun p => decide (p.2 ≤ e)) =
      (l.filter fun p => decide (e < p.2)) := by
  induction l with
  | nil => exact ⟨rfl, rfl⟩
  | cons a rest ih =>
    rw [List.pairwise_cons] at hsort
    obtain ⟨hhead, htail⟩ := hsort
    obtain ⟨ih1, ih2⟩ := ih htail
    by_cases h : a.2 ≤ e
    · constructor
      · simp [List.takeWhile_cons, List.filter_cons, h, ih1]
      · simp [List.dropWhile_cons, List.filter_cons, h, ih2, not_lt.mpr h]
    · have hall : ∀ b ∈ rest, ¬(b.2 ≤ e) := fun b hb hc =>
        h (le_trans (hhead b hb) hc)
      constructor
      · have : (rest.filter fun p => decide (p.2 ≤ e)) = [] :=
          List.filter_eq_nil_iff.mpr (by simpa using hall)
        simp [List.takeWhile_cons, List.filter_cons, h, this]
      · have : (rest.filter fun p => decide (e < p.2)) = rest :=
          List.filter_eq_self.mpr (by
            intro b hb
            simpa using not_le.mp (hall b hb))
        simp [List.dropWhile_cons, List.filter_cons, h, not_le.mp h, this]

lemma insertSpawn_perm (x : EnemySpawn) (l : List EnemySpawn) :
    List.Perm (insertSpawn x l) (x :: l) := by
  induction l with
  | nil => rfl
  | cons y ys ih =>
    unfold insertSpawn
    split_ifs with h
    · rfl
    · exact (ih.cons y).trans (List.Perm.swap x y ys)

lemma insertSpawn_sorted (x : EnemySpawn) (l : List EnemySpawn)
    (h : l.Pairwise fun a b => a.2 ≤ b.2) :
    (insertSpawn x l).Pairwise fun a b => a.2 ≤ b.2 := by
  induction l with
  | nil => simp [insertSpawn]
  | cons y ys ih =>
    rw [List.pairwise_cons] at h
    obtain ⟨hy, hys⟩ := h
    unfold insertSpawn
    split_ifs with hle
    · refine List.pairwise_cons.mpr ⟨?_, List.pairwise_cons.mpr ⟨hy, hys⟩⟩
      intro b hb
      rcases List.mem_cons.mp hb with rfl | hb
      · exact hle
      · exact le_trans hle (hy b hb)
    · refine List.pairwise_cons.mpr ⟨?_, ih hys⟩
      intro b hb
      have hb2 : b ∈ x :: ys := (insertSpawn_perm x ys).subset hb
      rcases List.mem_cons.mp hb2 with rfl | hb2
      · exact le_of_lt (not_le.mp hle)
      · exact hy b hb2

lemma sortSpawns_sorted (l : List EnemySpawn) :
    (sortSpawns l).Pairwise fun a b => a.2 ≤ b.2 := by
  induction l with
  | nil => simp [sortSpawns]
  | cons x xs ih => exact insertSpawn_sorted x (sortSpawns xs) ih

lemma sortSpawns_perm (l : List EnemySpawn) : List.Perm (sortSpawns l) l := by
  induction l with
  | nil => rfl
  | cons x xs ih =>
    exact (insertSpawn_perm x (sortSpawns xs)).trans (ih.cons x)

lemma insertSpawn_filter_time (x : EnemySpawn) (l : List EnemySpawn) (t : ℚ) :
    ((insertSpawn x l).filter fun p => decide (p.2 = t)) =
      if x.2 = t then x :: (l.filter fun p => decide (p.2 = t))
      else l.filter fun p => decide (p.2 = t) := by
  induction l with
  | nil =>
    unfold insertSpawn
    by_cases hx : x.2 = t <;> simp [List.filter_cons, hx]
  | cons y ys ih =>
    unfold insertSpawn
    by_cases hle : x.2 ≤ y.2
    · rw [if_pos hle]
      by_cases hx : x.2 = t <;> simp [List.filter_cons, hx]
    · rw [if_neg hle]
      have hylt : y.2 < x.2 := not_le.mp hle
      rw [List.filter_cons, ih]
      by_cases hx : x.2 = t
      · have hy : ¬(y.2 = t) := by
          intro hy
          rw [hx] at hylt
          rw [hy] at hylt
          exact lt_irrefl t hylt
        simp [List.filter_cons, hx, hy]
      · by_cases hy : y.2 = t <;> simp [List.filter_cons, hx, hy]

lemma sortSpawns_stable (l : List EnemySpawn) (t : ℚ) :
    ((sortSpawns l).filter fun p => decide (p.2 = t)) =
      l.filter fun p => decide (p.2 = t) := by
  induction l with
  | nil => rfl
  | cons x xs ih =>
    show ((insertSpawn x (sortSpawns xs)).filter fun p => decide (p.2 = t)) = _
    rw [insertSpawn_filter_time, List.filter_cons]
    by_cases hx : x.2 = t <;> simp [hx, ih]

lemma getD_map_sortSpawns (waves : List (List EnemySpawn)) (i : ℕ) :
    (waves.map sortSpawns).getD i [] = sortSpawns (waves.getD i []) := by
  induction waves generalizing i with
  | nil => cases i <;> rfl
  | cons w ws ih =>
    cases i with
    | zero => rfl
    | succ n => simpa using ih n

/-- C1: while a wave is active, update adds dt to the elapsed timer and
fires exactly the queued spawns whose spawn time is at most the new
elapsed value (the queue being time sorted, as every reachable queue is),
in ascending time order; the rest of the queue is kept with the new timer,
except that an emptied queue clears the runtime state in the same call;
with no active wave update is a no-op.  The final two conjuncts record
that the queues created at construction are stably sorted by time, so
ties fire in original sequence order. -/
theorem wave_update_spec (m : WaveManager) (s : WaveState) (dt : ℚ)
    (hs : m.state = some s)
    (hsort : s.spawns.Pairwise fun a b => a.2 ≤ b.2) :
    ((m.update dt).2 =
       (s.spawns.filter fun p => decide (p.2 ≤ s.elapsed + dt)).map Prod.fst) ∧
    ((m.update dt).1.current_index = m.current_index) ∧
    ((m.update dt).1.state =
       if (s.spawns.filter fun p => decide (s.elapsed + dt < p.2)) = [] then none
       else some { spawns := s.spawns.filter fun p => decide (s.elapsed + dt < p.2),
                   elapsed := s.elapsed + dt }) ∧
    ((s.spawns.filter fun p => decide (p.2 ≤ s.elapsed + dt)).Pairwise
       fun a b => a.2 ≤ b.2) ∧
    (∀ (m2 : WaveManager) (dt2 : ℚ), m2.state = none → m2.update dt2 = (m2, [])) ∧
    (∀ w : List EnemySpawn,
       ((sortSpawns w).Pairwise fun a b => a.2 ≤ b.2) ∧
       List.Perm (sortSpawns w) w ∧
       (∀ t : ℚ, ((sortSpawns w).filter fun p => decide (p.2 = t)) =
          w.filter fun p => decide (p.2 = t))) ∧
    (∀ (waves : List (List EnemySpawn)) (lw : Bool) (i : ℕ),
       (mkWaveManager waves lw).waves.getD i [] = sortSpawns (waves.getD i [])) := by
  obtain ⟨htake, hdrop⟩ :=
    sorted_takeWhile_eq_filter s.spawns (s.elapsed + dt) hsort
  have hupd : m.update dt =
      (if (s.spawns.filter fun p => decide (s.elapsed + dt < p.2)) = [] then
        ({ m with state := none },
         (s.spawns.filter fun p => decide (p.2 ≤ s.elapsed + dt)).map Prod.fst)
      else
        ({ m with
            state := some {
              spawns := s.spawns.filter fun p => decide (s.elapsed + dt < p.2),
              elapsed := s.elapsed + dt } },
         (s.spawns.filter fun p => decide (p.2 ≤ s.elapsed + dt)).map Prod.fst)) := by
    unfold WaveManager.update
    rw [hs]
    simp only [fireDue_eq, htake, hdrop]
  refine ⟨?_, ?_, ?_, ?_, ?_, ?_, ?_⟩
  · rw [hupd]
    split_ifs <;> rfl
  · rw [hupd]
    split_ifs <;> rfl
  · rw [hupd]
    split_ifs with h <;> simp [h]
  · exact List.Pairwise.sublist (List.filter_sublist _) hsort
  · intro m2 dt2 h2
    unfold WaveManager.update
    rw [h2]
  · intro w
    exact ⟨sortSpawns_sorted w, sortSpawns_perm w, fun t => sortSpawns_stable w t⟩
  · intro waves lw i
    exact getD_map_sortSpawns waves i

/-- Witness for C1: a wave with two spawns due at time 1 (tied) and one at
time 2; an update of one second from elapsed 0 fires the two tied spawns
in order and keeps the late one with the advanced timer. -/
theorem wave_update_spec_witness :
    ({ waves := [], loop_waves := false, current_index := 0,
       state := some { spawns := [("a", 1), ("b", 1), ("c", 2)], elapsed := 0 } }
        : WaveManager).state =
      some { spawns := [("a", 1), ("b", 1), ("c", 2)], elapsed := 0 } ∧
    (({ waves := [], loop_waves := false, current_index := 0,
        state := some { spawns := [("a", 1), ("b", 1), ("c", 2)], elapsed := 0 } }
         : WaveManager).update 1).2 = ["a", "b"] ∧
    (({ waves := [], loop_waves := false, current_index := 0,
        state := some { spawns := [("a", 1), ("b", 1), ("c", 2)], elapsed := 0 } }
         : WaveManager).update 1).1.state =
      some { spawns := [("c", 2)], elapsed := 1 } := by
  have hsort : ([("a", (1:ℚ)), ("b", 1), ("c", 2)]).Pairwise
      (fun a b => a.2 ≤ b.2) := by
    refine List.pairwise_cons.mpr ⟨?_, List.pairwise_cons.mpr ⟨?_,
      List.pairwise_cons.mpr ⟨?_, List.Pairwise.nil⟩⟩⟩ <;>
      intro b hb <;> simp at hb ⊢ <;> rcases hb with rfl | rfl <;> norm_num
  have h := wave_update_spec
    { waves := [], loop_waves := false, current_index := 0,
      state := some { spawns := [("a", 1), ("b", 1), ("c", 2)], elapsed := 0 } }
    { spawns := [("a", 1), ("b", 1), ("c", 2)], elapsed := 0 } 1 rfl hsort
  have hfilter1 : (([("a", (1:ℚ)), ("b", 1), ("c", 2)]).filter
      fun p => decide (p.2 ≤ (0:ℚ) + 1)) = [("a", 1), ("b", 1)] := by
    simp only [List.filter_cons, List.filter_nil]
    norm_num
  have hfilter2 : (([("a", (1:ℚ)), ("b", 1), ("c", 2)]).filter
      fun p => decide ((0:ℚ) + 1 < p.2)) = [("c", 2)] := by
    simp only [List.filter_cons, List.filter_nil]
    norm_num
  refine ⟨rfl, ?_, ?_⟩
  · rw [h.1, hfilter1]
    rfl
  · rw [h.2.2.1, hfilter2]
    rw [if_neg (by simp)]
    norm_num

/- ## C8: confirm_build success and failure behaviour -/

lemma cancel_confirm_build (bm : BuildManager) (occ : Finset GridPosition)
    (money : ℤ) : bm.cancel.confirm_build occ money = (bm.cancel, occ, none) :=
  rfl

/-- C8: confirm_build returns the selected button, inserts exactly the
previewed grid cell into the occupied set and resets to idle (so an
immediate second confirm_build returns none) iff a button is selected, a
preview exists with can_build true, and the funds cover the cost; in every
other case it returns none and leaves the occupied set and the manager
unchanged. -/
theorem confirm_build_spec (bm : BuildManager) (occ : Finset GridPosition)
    (money : ℤ) :
    ((bm.confirm_build occ money).2.2 ≠ none ↔
       ∃ (btn : TowerButton) (pv : BuildPreview),
         bm.selected_button = some btn ∧ bm.preview = some pv ∧
         pv.can_build = true ∧ btn.cost ≤ money) ∧
    (∀ (btn : TowerButton) (pv : BuildPreview),
       bm.selected_button = some btn → bm.preview = some pv →
       pv.can_build = true → btn.cost ≤ money →
         bm.confirm_build occ money =
           (bm.cancel, insert pv.grid_position occ, some btn) ∧
         bm.cancel.selected_button = none ∧ bm.cancel.preview = none ∧
         (∀ (occ2 : Finset GridPosition) (money2 : ℤ),
            bm.cancel.confirm_build occ2 money2 = (bm.cancel, occ2, none))) ∧
    ((bm.confirm_build occ money).2.2 = none →
       bm.confirm_build occ money = (bm, occ, none)) := by
  obtain ⟨ts, blocked, sel, pv⟩ := bm
  cases sel with
  | none =>
    cases pv with
    | none =>
      exact ⟨by simp [BuildManager.confirm_build], by intro btn p h; simp at h,
        fun _ => rfl⟩
    | some p =>
      exact ⟨by simp [BuildManager.confirm_build], by intro btn p2 h; simp at h,
        fun _ => rfl⟩
  | some b =>
    cases pv with
    | none =>
      exact ⟨by simp [BuildManager.confirm_build],
        by intro btn p2 _ h; simp at h, fun _ => rfl⟩
    | some p =>
      by_cases hcb : p.can_build = false
      · refine ⟨by simp [BuildManager.confirm_build, hcb], ?_, fun _ => by
          simp [BuildManager.confirm_build, hcb]⟩
        intro btn p2 h1 h2 h3 h4
        simp only [Option.some.injEq] at h2
        subst h2
        rw [h3] at hcb
        exact Bool.noConfusion hcb
      · have hcb2 : p.can_build = true := by
          cases h : p.can_build
          · exact absurd h hcb
          · rfl
        by_cases hm : money < b.cost
        · refine ⟨?_, ?_, fun _ => by simp [BuildManager.confirm_build, hcb2, hm]⟩
          · simp [BuildManager.confirm_build, hcb2, hm]
          · intro btn p2 h1 h2 h3 h4
            simp only [Option.some.injEq] at h1
            subst h1
            omega
        · have hres : (BuildManager.confirm_build
              ⟨ts, blocked, some b, some p⟩ occ money) =
              (BuildManager.cancel ⟨ts, blocked, some b, some p⟩,
               insert p.grid_position occ, some b) := by
            simp [BuildManager.confirm_build, hcb2, hm]
          refine ⟨?_, ?_, ?_⟩
          · rw [hres]
            simp [hcb2]
            omega
          · intro btn p2 h1 h2 h3 h4
            simp only [Option.some.injEq] at h1 h2
            subst h1
            subst h2
            exact ⟨hres, rfl, rfl, fun occ2 money2 =>
              cancel_confirm_build _ occ2 money2⟩
          · intro h
            rw [hres] at h
            exact Option.noConfusion h

/-- Witness for C8: a selected 50-cost button with a valid preview at cell
(2, 3) and 80 money confirms: the cell is inserted, the button returned,
and the manager resets to idle. -/
theorem confirm_build_spec_witness :
    bmW.selected_button = some btnW ∧ bmW.preview = some pvW ∧
    pvW.can_build = true ∧ btnW.cost ≤ 80 ∧
    bmW.confirm_build ∅ 80 =
      (bmW.cancel, insert ((2 : ℤ), (3 : ℤ)) ∅, some btnW) :=
  ⟨rfl, rfl, rfl, by decide,
   ((confirm_build_spec bmW ∅ 80).2.1 btnW pvW rfl rfl rfl (by decide)).1⟩

/- ## C2 and C9: path following -/

lemma pyDist_self (p : Point) : pyDist p p = 0 := by
  unfold pyDist
  simp

lemma pyDist_eq_zero {p q : Point} (h : pyDist p q = 0) : q = p := by
  unfold pyDist at h
  have hnn : (0:ℝ) ≤ (q.1 - p.1) ^ 2 + (q.2 - p.2) ^ 2 := by positivity
  have hsum : (q.1 - p.1) ^ 2 + (q.2 - p.2) ^ 2 = 0 :=
    (Real.sqrt_eq_zero hnn).mp h
  have h1 : (q.1 - p.1) ^ 2 = 0 := by
    nlinarith [sq_nonneg (q.1 - p.1), sq_nonneg (q.2 - p.2)]
  have h2 : (q.2 - p.2) ^ 2 = 0 := by
    nlinarith [sq_nonneg (q.1 - p.1), sq_nonneg (q.2 - p.2)]
  have e1 : q.1 = p.1 := by
    have := pow_eq_zero_iff (n := 2) (by norm_num) |>.mp h1
    linarith
  have e2 : q.2 = p.2 := by
    have := pow_eq_zero_iff (n := 2) (by norm_num) |>.mp h2
    linarith
  exact Prod.ext e1 e2

/-- C2: on a two-waypoint path whose segment has length L, any positive
speed and dt with speed * dt at least L make a single update snap the
enemy exactly onto the second waypoint, with waypoint index 1 (and the
goal reached). -/
theorem enemy_two_waypoint_snap (w0 w1 : Point) (speed dt tol : ℝ)
    (health : ℤ) (hspeed : 0 < speed) (hdt : 0 < dt)
    (hL : pyDist w0 w1 ≤ speed * dt) :
    ∀ e : Enemy, mkEnemy [w0, w1] speed health tol = some e →
      (e.update dt none).1.position = w1 ∧
      (e.update dt none).1.waypoint_index = 1 ∧
      (e.update dt none).1.reached_goal = true := by
  intro e he
  have he2 : e = ⟨[w0, w1], 0, w0, speed, health, true, tol, false⟩ :=
    (Option.some_inj.mp he).symm
  subst he2
  have hrem : 0 < speed * dt := mul_pos hspeed hdt
  have hstep2 : moveLoop [w0, w1] tol 1 w0 (speed * dt) none =
      (1, w1, true, none) := by
    rw [moveLoop]
    rw [if_neg (not_le.mpr hrem)]
    simp only [List.getD_cons_succ, List.getD_cons_zero, List.length_cons,
      List.length_nil]
    by_cases hLtol : pyDist w0 w1 ≤ tol
    · rw [if_pos hLtol, if_pos (by decide)]
      rfl
    · rw [if_neg hLtol, if_pos hL, if_pos (by decide)]
      rfl
  have hloop : moveLoop [w0, w1] tol 0 w0 (speed * dt) none =
      (1, w1, true, none) := by
    rw [moveLoop]
    rw [if_neg (not_le.mpr hrem)]
    simp only [List.getD_cons_zero, List.length_cons, List.length_nil]
    rw [pyDist_self]
    by_cases htol : (0:ℝ) ≤ tol
    · rw [if_pos htol, if_neg (by decide)]
      simpa using hstep2
    · rw [if_neg htol, if_pos (le_of_lt hrem), if_neg (by decide)]
      rw [sub_zero]
      simpa using hstep2
  unfold Enemy.update
  rw [if_neg (by simp)]
  simp only [hloop]
  exact ⟨trivial, trivial, trivial⟩

/-- C9: an enemy on a single-waypoint path leaks immediately: the first
update with positive dt leaves position and waypoint index unchanged, sets
reached_goal, and costs a player with positive lives exactly one life;
with dt = 0 nothing changes at all. -/
theorem enemy_single_waypoint_leak (w0 : Point) (speed dt tol : ℝ)
    (health lives : ℤ) (hspeed : 0 < speed) (hdt : 0 < dt)
    (hlives : 0 < lives) :
    ∀ e : Enemy, mkEnemy [w0] speed health tol = some e →
      (e.update dt (some { lives := lives })).1.position = e.position ∧
      (e.update dt (some { lives := lives })).1.waypoint_index =
        e.waypoint_index ∧
      (e.update dt (some { lives := lives })).1.reached_goal = true ∧
      (e.update dt (some { lives := lives })).2 =
        some { lives := lives - 1 } ∧
      e.update 0 (some { lives := lives }) = (e, some { lives := lives }) := by
  intro e he
  have he2 : e = ⟨[w0], 0, w0, speed, health, true, tol, false⟩ :=
    (Option.some_inj.mp he).symm
  subst he2
  have hrem : 0 < speed * dt := mul_pos hspeed hdt
  have hloop : moveLoop [w0] tol 0 w0 (speed * dt)
      (some { lives := lives }) =
      (0, w0, true, some { lives := lives - 1 }) := by
    rw [moveLoop]
    rw [if_neg (not_le.mpr hrem)]
    simp only [List.getD_cons_zero, List.length_cons, List.length_nil]
    rw [pyDist_self]
    have hmap : Option.map Player.lose_life (some { lives := lives }) =
        some { lives := lives - 1 } := by
      simp [Player.lose_life, hlives]
    by_cases htol : (0:ℝ) ≤ tol
    · rw [if_pos htol, if_pos (by decide)]
      rw [hmap]
    · rw [if_neg htol, if_pos (le_of_lt hrem), if_pos (by decide)]
      rw [hmap]
  refine ⟨?_, ?_, ?_, ?_, ?_⟩
  · unfold Enemy.update
    rw [if_neg (by simp)]
    simp only [hloop]
  · unfold Enemy.update
    rw [if_neg (by simp)]
    simp only [hloop]
  · unfold Enemy.update
    rw [if_neg (by simp)]
    simp only [hloop]
  · unfold Enemy.update
    rw [if_neg (by simp)]
    simp only [hloop]
  · unfold Enemy.update
    rw [if_neg (by simp)]
    have hzero : speed * (0:ℝ) = 0 := mul_zero speed
    rw [hzero]
    rw [moveLoop]
    rw [if_pos (le_refl (0:ℝ))]

/-- Witness for C2: the segment (0,0) to (3,4) has length 5 and speed 5
with dt 1 covers it: the enemy lands exactly on (3,4) at index 1. -/
theorem enemy_two_waypoint_snap_witness :
    mkEnemy [((0:ℝ), (0:ℝ)), ((3:ℝ), (4:ℝ))] 5 10 1 = some eW2 ∧
    (eW2.update 1 none).1.position = ((3:ℝ), (4:ℝ)) ∧
    (eW2.update 1 none).1.waypoint_index = 1 := by
  have hd : pyDist ((0:ℝ), (0:ℝ)) ((3:ℝ), (4:ℝ)) = 5 := by
    show Real.sqrt (((3:ℝ) - 0) ^ 2 + ((4:ℝ) - 0) ^ 2) = 5
    rw [show ((3:ℝ) - 0) ^ 2 + ((4:ℝ) - 0) ^ 2 = 5 ^ 2 by norm_num]
    exact Real.sqrt_sq (by norm_num)
  have h := enemy_two_waypoint_snap ((0:ℝ), (0:ℝ)) ((3:ℝ), (4:ℝ)) 5 1 1 10
    (by norm_num) (by norm_num) (by rw [hd]; norm_num) eW2 rfl
  exact ⟨rfl, h.1, h.2.1⟩

/-- Witness for C9: the single-waypoint enemy leaks on its first update,
costing a 3-lives player one life, and a zero dt changes nothing. -/
theorem enemy_single_waypoint_leak_witness :
    mkEnemy [((2:ℝ), (5:ℝ))] 1 10 1 = some eW1 ∧ (0:ℤ) < 3 ∧
    (eW1.update 1 (some { lives := 3 })).1.reached_goal = true ∧
    (eW1.update 1 (some { lives := 3 })).1.position = eW1.position ∧
    (eW1.update 1 (some { lives := 3 })).1.waypoint_index = eW1.waypoint_index ∧
    (eW1.update 1 (some { lives := 3 })).2 = some { lives := 2 } ∧
    eW1.update 0 (some { lives := 3 }) = (eW1, some { lives := 3 }) := by
  have h := enemy_single_waypoint_leak ((2:ℝ), (5:ℝ)) 1 1 1 10 3
    (by norm_num) (by norm_num) (by norm_num) eW1 rfl
  refine ⟨rfl, by norm_num, h.2.2.1, h.1, h.2.1, ?_, h.2.2.2.2⟩
  rw [h.2.2.2.1]
  rw [show (3:ℤ) - 1 = 2 by norm_num]

/- ## C6: projectile never damages a dead target -/

/-- C6: the projectile update never damages a target that is not alive:
a dead target at the start of an update finishes the projectile with no
damage event; on arrival (speed * dt at least the distance) the update
routes through hit_target, which re-checks liveness immediately before
emitting damage and emits none for a dead target; a finished projectile
updates as a complete no-op; and every emitted damage event implies the
target was alive. -/
theorem projectile_no_damage_dead (p : Projectile) (t : Target) (dt : ℝ) :
    (p.finished = true → p.update t dt = (p, none)) ∧
    (p.finished = false → t.alive = false →
       p.update t dt = ({ p with finished := true }, none)) ∧
    (∀ (q : Projectile) (u : Target), u.alive = false →
       q.hit_target u = ({ q with finished := true }, none)) ∧
    (∀ (q : Projectile) (u : Target), (q.hit_target u).2 ≠ none →
       u.alive = true) ∧
    (p.finished = false → t.alive = true →
       pyDist p.position t.position ≤ p.speed * dt →
       p.update t dt = ({ p with position := t.position }).hit_target t) ∧
    ((p.update t dt).2 ≠ none → t.alive = true) := by
  have hhit : ∀ (q : Projectile) (u : Target), u.alive = false →
      q.hit_target u = ({ q with finished := true }, none) := by
    intro q u h
    unfold Projectile.hit_target
    rw [if_pos h]
  have hfin : p.finished = true → p.update t dt = (p, none) := by
    intro h
    unfold Projectile.update
    rw [if_pos h]
  have hdead : p.finished = false → t.alive = false →
      p.update t dt = ({ p with finished := true }, none) := by
    intro h1 h2
    unfold Projectile.update
    rw [if_neg (by rw [h1]; simp), if_pos h2]
  have harrive : p.finished = false → t.alive = true →
      pyDist p.position t.position ≤ p.speed * dt →
      p.update t dt = ({ p with position := t.position }).hit_target t := by
    intro h1 h2 h3
    unfold Projectile.update
    rw [if_neg (by rw [h1]; simp), if_neg (by rw [h2]; simp)]
    by_cases hd0 : pyDist p.position t.position = 0
    · rw [if_pos hd0]
      have hpos : t.position = p.position := pyDist_eq_zero hd0
      rw [hpos]
    · rw [if_neg hd0, if_pos h3]
  have hgate : ∀ (q : Projectile) (u : Target), (q.hit_target u).2 ≠ none →
      u.alive = true := by
    intro q u h
    cases ha : u.alive
    · rw [hhit q u ha] at h
      exact absurd rfl h
    · rfl
  refine ⟨hfin, hdead, hhit, hgate, harrive, ?_⟩
  intro h
  cases hf : p.finished
  · cases ha : t.alive
    · rw [hdead hf ha] at h
      exact absurd rfl h
    · rfl
  · rw [hfin hf] at h
    exact absurd rfl h

/-- Witness for C6: updating against the dead target finishes the
projectile with no damage, and a finished projectile is a no-op. -/
theorem projectile_no_damage_dead_witness :
    pW.finished = false ∧ tW.alive = false ∧
    pW.update tW 1 = ({ pW with finished := true }, none) ∧
    ({ pW with finished := true } : Projectile).update tW 1 =
      ({ pW with finished := true }, none) :=
  ⟨rfl, rfl, (projectile_no_damage_dead pW tW 1).2.1 rfl rfl,
   (projectile_no_damage_dead { pW with finished := true } tW 1).1 rfl⟩

end TDS
